import Mathlib

/-!
Verification of the Log2SQLite batch-ETL tool (src/src/main.rs) against its
natural-language specification.

The program is embedded shallowly:
  - the regex crate is abstracted as a structure carrying the ordered list of
    capture-group names (declaration order, anonymous groups as none) and a
    capture function per line; the crate rejects duplicate group names at
    compile time, which is recorded as a structure invariant;
  - the SQLite store is a state value holding tables (name and typed columns)
    and the rows of log_data; CREATE TABLE IF NOT EXISTS and INSERT are
    modelled with the SQLite behaviour the program exercises (existence check
    first, duplicate-column rejection when creating, parameter-count and
    column checks on insert);
  - the filesystem is a flat directory value (none when the directory is
    missing or unreadable) whose entries carry a base name, a regular-file
    flag, and the line-read results of the file (none when opening fails,
    per-line errors for mid-file read failures);
  - a run result records the outcome (total match count or error), the final
    store state, and the list of files the run attempted to open, in order.
-/

namespace Log2SQLite

/-- Error kinds of the run, following section 7 of the specification. -/
inductive Err where
  | patternErr
  | schemaErr
  | directoryErr
  | ioErr
  | insertErr
deriving DecidableEq, Repr

/-- Abstraction of a compiled regex: the capture-name list in declaration
order (position 0, the whole match, is anonymous, hence entries are
optional), and per line either no overall match or a map from group name to
the captured substring of the groups that participated.  The regex crate
rejects duplicate group names when compiling, recorded as an invariant. -/
structure Regexp where
  captureNames : List (Option String)
  captures : String → Option (String → Option String)
  namesNodup : List.Nodup (captureNames.filterMap id)

/-- The named groups of the pattern in declaration order: the code at
main.rs:49-53 collects capture_names() and flattens away the anonymous
entries. -/
def namedGroups (rx : Regexp) : List String :=
  rx.captureNames.filterMap id

/-- The derived column list, main.rs:49-55: named groups in declaration
order followed by the trailing filename column. -/
def columnNames (rx : Regexp) : List String :=
  namedGroups rx ++ ["filename"]

/-- The SQLite store: the tables (name paired with typed columns) and the
rows of log_data, each row the bound values in statement order. -/
structure DB where
  tables : List (String × List (String × String))
  rows : List (List String)
deriving DecidableEq, Repr

/-- Connection open, main.rs:58: opens the database file, creating an empty
store when the file is absent. -/
def openStore (store : Option DB) : DB :=
  store.getD ⟨[], []⟩

/-- Duplicate detection over a column list, as SQLite performs it when it
actually creates a table (duplicate column name error). -/
def nodupBool : List String → Bool
  | [] => true
  | c :: cs => (!(cs.contains c)) && nodupBool cs

/-- CREATE TABLE IF NOT EXISTS log_data (c1 TEXT, ..., ck TEXT),
main.rs:59-67.  When log_data already exists the statement is a no-op (the
column list is not even checked); when it is absent, a duplicate column name
is rejected with an error, otherwise the table is created with every column
of TEXT type. -/
def createTable (db : DB) (cols : List String) : Except Err DB :=
  if db.tables.any (fun t => t.1 == "log_data") then
    .ok db
  else if nodupBool cols then
    .ok ⟨db.tables ++ [("log_data", cols.map (fun c => (c, "TEXT")))], db.rows⟩
  else
    .error .schemaErr

/-- One directory entry: base name, regular-file flag, and the content the
run would read from it (none when File::open fails; each line read may fail
mid-file). -/
structure DirEntry where
  name : String
  isFile : Bool
  content : Option (List (Except Err String))

/-- Whether pat is a leading segment of hay, character by character. -/
def charsLeadWith (pat hay : List Char) : Bool :=
  match pat, hay with
  | [], _ => true
  | _ :: _, [] => false
  | p :: ps, h :: hs => p == h && charsLeadWith ps hs

/-- Whether pat occurs contiguously somewhere in hay. -/
def charsContain (pat : List Char) : List Char → Bool
  | [] => pat.isEmpty
  | h :: hs => charsLeadWith pat (h :: hs) || charsContain pat hs

/-- Substring containment of Rust str::contains: the filter occurs
contiguously in the name (case-sensitive, ordinary substring containment,
not glob or regex). -/
def strContainsSub (hay pat : String) : Bool :=
  charsContain pat.data hay.data

/-- The loop body of find_matching_files, main.rs:145-155: walk the
enumeration of the directory, pushing every direct child that is a regular
file whose base name contains the filter substring. -/
def selectFiles (filter : String) : List DirEntry → List DirEntry
  | [] => []
  | e :: rest =>
    if e.isFile && strContainsSub e.name filter then
      e :: selectFiles filter rest
    else
      selectFiles filter rest

/-- find_matching_files, main.rs:142-158, over the directory value: none
means fs::read_dir failed (missing or unreadable directory). -/
def find_matching_files (dir : Option (List DirEntry)) (filter : String) :
    Except Err (List DirEntry) :=
  match dir with
  | none => .error .directoryErr
  | some entries => .ok (selectFiles filter entries)

/-- The row built for a matching line, main.rs:123-129: for every column
name other than filename, the captured substring of the group of that name
when it participated in the match, the empty string otherwise; the base name
of the source file is appended as the filename value. -/
def buildRow (cols : List String) (caps : String → Option String)
    (fname : String) : List String :=
  (cols.filter (fun n => n != "filename")).map (fun n => (caps n).getD "")
    ++ [fname]

/-- One INSERT INTO log_data (cols) VALUES (...) inside the open
transaction, main.rs:108-132: the bound values must match the placeholder
count, the table must exist and every statement column must be a column of
it; on success exactly one row is appended. -/
def dbInsert (db : DB) (cols : List String) (row : List String) :
    Except Err DB :=
  match db.tables.find? (fun t => t.1 == "log_data") with
  | none => .error .insertErr
  | some t =>
    if row.length == cols.length
        && cols.all (fun c => t.2.any (fun tc => tc.1 == c)) then
      .ok ⟨db.tables, db.rows ++ [row]⟩
    else
      .error .insertErr

/-- The line loop of process_file, main.rs:117-134, threading the match
count and the transaction state: a line-read failure or an insert failure
aborts (the transaction is dropped uncommitted); a non-matching line inserts
nothing; a matching line inserts exactly the built row. -/
def processLines (rx : Regexp) (cols : List String) (fname : String) :
    List (Except Err String) → Nat → DB → Except Err (Nat × DB)
  | [], count, db => .ok (count, db)
  | l :: rest, count, db =>
    match l with
    | .error e => .error e
    | .ok line =>
      match rx.captures line with
      | none => processLines rx cols fname rest count db
      | some caps =>
        match dbInsert db cols (buildRow cols caps fname) with
        | .error e => .error e
        | .ok db1 => processLines rx cols fname rest (count + 1) db1

/-- process_file, main.rs:96-139: open the file (failure is an I/O error
with nothing persisted), run the line loop inside one transaction, commit at
the end.  An error result means the transaction was never committed, so the
caller keeps the pre-file store state. -/
def process_file (rx : Regexp) (cols : List String) (e : DirEntry)
    (db : DB) : Except Err (Nat × DB) :=
  match e.content with
  | none => .error .ioErr
  | some ls => processLines rx cols e.name ls 0 db

/-- The sequential file loop of main, main.rs:78-89: process each selected
file in order, accumulating the match count; the first failing file halts
the loop, the store keeps the state committed by the preceding files, and
the list of attempted file opens ends with the failing file. -/
def runFiles (rx : Regexp) (cols : List String) :
    List DirEntry → DB → Except Err Nat × DB × List String
  | [], db => (.ok 0, db, [])
  | f :: rest, db =>
    match process_file rx cols f db with
    | .error e => (.error e, db, [f.name])
    | .ok (n, db1) =>
      match runFiles rx cols rest db1 with
      | (.ok m, db2, opened) => (.ok (n + m), db2, f.name :: opened)
      | (.error e, db2, opened) => (.error e, db2, f.name :: opened)

/-- The per-file match counts of a run, in file order, as reported by the
per-file progress messages of main.rs:137 (empty tail after a failure). -/
def runCounts (rx : Regexp) (cols : List String) :
    List DirEntry → DB → List Nat
  | [], _ => []
  | f :: rest, db =>
    match process_file rx cols f db with
    | .error _ => []
    | .ok (n, db1) => n :: runCounts rx cols rest db1

/-- The inputs of one invocation: the result of compiling the regex
argument, the file filter, the directory (none when missing or unreadable),
and the store file (none when the database file does not exist yet). -/
structure RunInput where
  compiled : Except Err Regexp
  fileFilter : String
  dir : Option (List DirEntry)
  store : Option DB

/-- The observable outcome of one invocation: the result (total match count
or the aborting error), the final state of the store file (none when it was
never created), and the input files the run attempted to open, in order. -/
structure RunResult where
  outcome : Except Err Nat
  store : Option DB
  opened : List String

/-- main, main.rs:8-93: compile the pattern (failure aborts with the store
untouched), derive the column list, open the store and ensure the schema,
list the matching files (failure aborts, but the store is already open at
this point), report cleanly when no file matches, otherwise run the file
loop. -/
def main (inp : RunInput) : RunResult :=
  match inp.compiled with
  | .error e => ⟨.error e, inp.store, []⟩
  | .ok rx =>
    let cols := columnNames rx
    let db0 := openStore inp.store
    match createTable db0 cols with
    | .error e => ⟨.error e, some db0, []⟩
    | .ok db1 =>
      match find_matching_files inp.dir inp.fileFilter with
      | .error e => ⟨.error e, some db1, []⟩
      | .ok files =>
        if files.isEmpty then
          ⟨.ok 0, some db1, []⟩
        else
          match runFiles rx cols files db1 with
          | (out, db2, opened) => ⟨out, some db2, opened⟩

/-- Modelled from the wording of the specification, for comparison with the
row the code builds: on a matching line, one row holding, for every named
group in declaration order, the captured substring if the group participated
in the match and the empty string otherwise, followed by the base name of
the source file; no row on a non-matching line. -/
def specRow (rx : Regexp) (fname : String) (line : String) :
    Option (List String) :=
  (rx.captures line).map
    (fun caps => (namedGroups rx).map (fun g => (caps g).getD "") ++ [fname])

/-- A concrete two-group pattern for witnesses: it matches exactly the line
E 42, capturing 42 as the group named code. -/
def rxEx : Regexp :=
  ⟨[none, some "code"],
   fun s =>
     if s = "E 42" then some (fun g => if g = "code" then some "42" else none)
     else none,
   by decide⟩

/-- A concrete pattern whose single named group is called filename. -/
def rxClash : Regexp :=
  ⟨[none, some "filename"], fun _ => none, by decide⟩

/-- A concrete readable log file with one matching and one non-matching
line. -/
def entEx : DirEntry :=
  ⟨"sys.log", true, some [.ok "E 42", .ok "nope"]⟩

/-- A concrete file whose first line read fails mid-file. -/
def entBad : DirEntry :=
  ⟨"bad.log", true, some [.error .ioErr]⟩

/-- The store after the schema step of a run with rxEx on a fresh store. -/
def dbT : DB :=
  ⟨[("log_data", [("code", "TEXT"), ("filename", "TEXT")])], []⟩

/-- A concrete invocation whose directory is missing and whose store file
does not exist yet. -/
def inpNoDir : RunInput :=
  ⟨.ok rxEx, "sys", none, none⟩

/-- A concrete invocation whose pattern fails to compile. -/
def inpBadPat : RunInput :=
  ⟨.error .patternErr, "sys", some [entEx], none⟩

/-- A concrete invocation whose pattern has a named group called filename,
against a fresh store. -/
def inpClash : RunInput :=
  ⟨.ok rxClash, "sys", some [entEx], none⟩

theorem contains_true_iff {a : String} {l : List String} :
    l.contains a = true ↔ a ∈ l := by
  simp [List.contains, List.elem_iff]

theorem nodupBool_iff : ∀ l : List String, nodupBool l = true ↔ l.Nodup := by
  intro l
  induction l with
  | nil => simp [nodupBool]
  | cons c cs ih =>
    simp only [nodupBool, Bool.and_eq_true, Bool.not_eq_true', List.nodup_cons]
    rw [ih]
    constructor
    · rintro ⟨h1, h2⟩
      exact ⟨fun hm => by simp [contains_true_iff] at h1; exact h1 hm, h2⟩
    · rintro ⟨h1, h2⟩
      refine ⟨?_, h2⟩
      cases hc : cs.contains c with
      | false => rfl
      | true => exact absurd (contains_true_iff.mp hc) h1

theorem selectFiles_eq_filter (filter : String) (entries : List DirEntry) :
    selectFiles filter entries =
      entries.filter (fun e => e.isFile && strContainsSub e.name filter) := by
  induction entries with
  | nil => rfl
  | cons e rest ih =>
    simp only [selectFiles, List.filter_cons]
    split <;> simp_all

/-- Claim C4: for every readable directory and filter substring, the file
selector returns exactly the direct children that are regular files and
whose base name contains the filter as a case-sensitive substring, and it
returns an empty list, not an error, when no file matches. -/
theorem claim_C4_file_selector (entries : List DirEntry) (filter : String) :
    ∃ l, find_matching_files (some entries) filter = Except.ok l ∧
      l = entries.filter (fun e => e.isFile && strContainsSub e.name filter) ∧
      (∀ e, e ∈ l ↔
        e ∈ entries ∧ e.isFile = true ∧ strContainsSub e.name filter = true) ∧
      ((∀ e ∈ entries,
          ¬(e.isFile = true ∧ strContainsSub e.name filter = true)) → l = []) := by
  refine ⟨selectFiles filter entries, rfl, selectFiles_eq_filter filter entries,
    ?_, ?_⟩
  · intro e
    rw [selectFiles_eq_filter, List.mem_filter]
    simp [Bool.and_eq_true]
  · intro h
    rw [selectFiles_eq_filter, List.filter_eq_nil_iff]
    intro e he
    simpa [Bool.and_eq_true] using h e he

theorem claim_C4_witness :
    ∃ l, find_matching_files (some [entEx, entBad, ⟨"sub", false, none⟩])
        "sys" = Except.ok l ∧
      l = [entEx, entBad, ⟨"sub", false, none⟩].filter
        (fun e => e.isFile && strContainsSub e.name "sys") ∧
      (∀ e, e ∈ l ↔
        e ∈ [entEx, entBad, ⟨"sub", false, none⟩] ∧ e.isFile = true ∧
          strContainsSub e.name "sys" = true) ∧
      ((∀ e ∈ [entEx, entBad, ⟨"sub", false, none⟩],
          ¬(e.isFile = true ∧ strContainsSub e.name "sys" = true)) → l = []) :=
  claim_C4_file_selector [entEx, entBad, ⟨"sub", false, none⟩] "sys"

/-- Claim C8: for every syntactically invalid pattern string, the run aborts
before any input file is opened and the output store is untouched: the store
component of the result equals the input store (in particular it is never
created when absent) and no file open is attempted. -/
theorem claim_C8_bad_pattern (inp : RunInput) (e : Err)
    (h : inp.compiled = .error e) :
    main inp = ⟨.error e, inp.store, []⟩ := by
  unfold main
  rw [h]

theorem claim_C8_witness :
    main inpBadPat = ⟨.error Err.patternErr, none, []⟩ :=
  claim_C8_bad_pattern inpBadPat Err.patternErr rfl

/-- Claim C3 as stated is false on the code: with a missing log_dir the run
does abort with a directory error, but the store has already been opened,
created and given its table, because main opens the connection and ensures
the schema (main.rs:58-67) before it lists the directory (main.rs:71).
Concretely: the directory is missing, the store file did not exist, and the
run ends with the directory error while the final store exists and already
holds the log_data table. -/
theorem claim_C3_counterexample :
    (main inpNoDir).outcome = Except.error Err.directoryErr ∧
    inpNoDir.store = none ∧
    (main inpNoDir).store = some dbT :=
  ⟨rfl, rfl, rfl⟩

/-- Claim C3 amended: when log_dir is missing the run aborts with a
directory error and no input file is opened, but the output store has
already been opened (created if absent) and the schema ensured before the
directory is read. -/
theorem claim_C3_amended (inp : RunInput) (rx : Regexp) (db1 : DB)
    (hrx : inp.compiled = .ok rx)
    (hdir : inp.dir = none)
    (hsch : createTable (openStore inp.store) (columnNames rx) = .ok db1) :
    main inp = ⟨.error Err.directoryErr, some db1, []⟩ := by
  unfold main
  rw [hrx]
  simp only [hsch, hdir, find_matching_files]

theorem claim_C3_witness :
    main inpNoDir = ⟨.error Err.directoryErr, some dbT, []⟩ :=
  claim_C3_amended inpNoDir rxEx dbT rfl rfl rfl

/-- Claim C9: schema creation is idempotent: if the schema step succeeded
once, running it again against the resulting store with the same column
list succeeds and leaves the store exactly as it was, so no second table is
created and the existing one is not altered. -/
theorem claim_C9_idempotent (db : DB) (cols : List String) (db1 : DB)
    (h : createTable db cols = .ok db1) :
    createTable db1 cols = .ok db1 := by
  unfold createTable at h ⊢
  split at h
  case isTrue hex =>
    cases h
    simp [hex]
  case isFalse hex =>
    split at h
    case isTrue hnd =>
      cases h
      simp
    case isFalse => cases h

theorem claim_C9_witness :
    createTable dbT (columnNames rxEx) = Except.ok dbT :=
  claim_C9_idempotent ⟨[], []⟩ (columnNames rxEx) dbT rfl

theorem any_logdata_false {ts : List (String × List (String × String))}
    (habs : ∀ t ∈ ts, t.1 ≠ "log_data") :
    ts.any (fun t => t.1 == "log_data") = false := by
  rw [List.any_eq_false]
  intro t ht
  simpa using habs t ht

theorem nodup_columns {rx : Regexp} (hfn : "filename" ∉ namedGroups rx) :
    nodupBool (columnNames rx) = true := by
  rw [nodupBool_iff, columnNames, List.nodup_append]
  refine ⟨rx.namesNodup, List.nodup_singleton _, ?_⟩
  intro a ha hb
  rw [List.mem_singleton] at hb
  subst hb
  exact hfn ha

/-- Claim C1: for every pattern with named capture groups g1,...,gk (none of
them called filename, which the regex cannot duplicate and whose clash case
is claim C10) and a store without a log_data table, the schema step creates
exactly one table named log_data whose columns are g1,...,gk in declaration
order followed by a trailing filename column, all of TEXT type. -/
theorem claim_C1_schema (rx : Regexp) (db : DB)
    (hfn : "filename" ∉ namedGroups rx)
    (habs : ∀ t ∈ db.tables, t.1 ≠ "log_data") :
    columnNames rx = namedGroups rx ++ ["filename"] ∧
    createTable db (columnNames rx) =
      .ok ⟨db.tables ++
          [("log_data", (columnNames rx).map (fun c => (c, "TEXT")))],
        db.rows⟩ ∧
    ∀ db1, createTable db (columnNames rx) = .ok db1 →
      db1.tables.filter (fun t => t.1 == "log_data") =
        [("log_data", (columnNames rx).map (fun c => (c, "TEXT")))] := by
  have hany := any_logdata_false habs
  have hnd := nodup_columns hfn
  have hcr : createTable db (columnNames rx) =
      .ok ⟨db.tables ++
          [("log_data", (columnNames rx).map (fun c => (c, "TEXT")))],
        db.rows⟩ := by
    unfold createTable
    simp [hany, hnd]
  refine ⟨rfl, hcr, ?_⟩
  intro db1 h1
  rw [hcr] at h1
  cases h1
  rw [List.filter_append]
  have hnil : db.tables.filter (fun t => t.1 == "log_data") = [] := by
    rw [List.filter_eq_nil_iff]
    intro t ht
    simpa using habs t ht
  rw [hnil]
  simp

theorem claim_C1_witness :
    columnNames rxEx = namedGroups rxEx ++ ["filename"] ∧
    createTable ⟨[], []⟩ (columnNames rxEx) =
      .ok ⟨[] ++ [("log_data", (columnNames rxEx).map (fun c => (c, "TEXT")))],
        []⟩ ∧
    ∀ db1, createTable ⟨[], []⟩ (columnNames rxEx) = .ok db1 →
      db1.tables.filter (fun t => t.1 == "log_data") =
        [("log_data", (columnNames rxEx).map (fun c => (c, "TEXT")))] :=
  claim_C1_schema rxEx ⟨[], []⟩ (by decide) (by simp)

/-- Claim C10: for every pattern that itself has a named capture group
called filename, the derived column list contains filename twice, and
against a store without a log_data table the generated CREATE TABLE
statement declares a duplicate column, so the run aborts at schema creation
before any file is processed (the store file itself was already created by
the connection open). -/
theorem claim_C10_filename_clash (inp : RunInput) (rx : Regexp)
    (hrx : inp.compiled = .ok rx)
    (hmem : "filename" ∈ namedGroups rx)
    (habs : ∀ t ∈ (openStore inp.store).tables, t.1 ≠ "log_data") :
    List.count "filename" (columnNames rx) = 2 ∧
    main inp = ⟨.error Err.schemaErr, some (openStore inp.store), []⟩ := by
  constructor
  · have h1 : List.count "filename" (namedGroups rx) = 1 :=
      List.count_eq_one_of_mem (by exact rx.namesNodup) hmem
    rw [columnNames, List.count_append, h1]
    simp
  · have hany := any_logdata_false habs
    have hnd : nodupBool (columnNames rx) = false := by
      cases h : nodupBool (columnNames rx) with
      | false => rfl
      | true =>
        rw [nodupBool_iff, columnNames, List.nodup_append] at h
        exact absurd hmem (fun hm => h.2.2 hm (List.mem_singleton_self _))
    have hcr : createTable (openStore inp.store) (columnNames rx) =
        .error Err.schemaErr := by
      unfold createTable
      simp [hany, hnd]
    unfold main
    rw [hrx]
    simp only [hcr]

theorem claim_C10_witness :
    List.count "filename" (columnNames rxClash) = 2 ∧
    main inpClash = ⟨.error Err.schemaErr, some ⟨[], []⟩, []⟩ :=
  claim_C10_filename_clash inpClash rxClash rfl (by decide)
    (by intro t ht; simp [inpClash, openStore] at ht)

theorem dbInsert_ok {db : DB} {cols : List String} {row : List String}
    {db1 : DB} (h : dbInsert db cols row = .ok db1) :
    db1.tables = db.tables ∧ db1.rows = db.rows ++ [row] := by
  unfold dbInsert at h
  split at h
  · simp at h
  · split at h
    · cases h
      exact ⟨rfl, rfl⟩
    · simp at h

theorem processLines_ok (rx : Regexp) (cols : List String) (fname : String) :
    ∀ (ls : List (Except Err String)) (c : Nat) (db : DB) (n : Nat) (db1 : DB),
      processLines rx cols fname ls c db = .ok (n, db1) →
      ∃ pls : List String, ls = pls.map Except.ok ∧
        db1.tables = db.tables ∧
        db1.rows = db.rows ++ pls.filterMap
          (fun l => (rx.captures l).map (fun cp => buildRow cols cp fname)) ∧
        n = c + pls.countP (fun l => (rx.captures l).isSome) := by
  intro ls
  induction ls with
  | nil =>
    intro c db n db1 h
    simp only [processLines, Except.ok.injEq, Prod.mk.injEq] at h
    obtain ⟨rfl, rfl⟩ := h
    exact ⟨[], rfl, rfl, by simp, by simp⟩
  | cons l rest ih =>
    intro c db n db1 h
    cases l with
    | error e =>
      simp [processLines] at h
    | ok line =>
      simp only [processLines] at h
      split at h
      · rename_i hc
        obtain ⟨pls, hls, ht, hr, hcnt⟩ := ih c db n db1 h
        refine ⟨line :: pls, by simp [hls], ht, ?_, ?_⟩
        · rw [hr]
          simp [List.filterMap_cons, hc]
        · rw [hcnt]
          simp [List.countP_cons, hc]
      · rename_i caps hc
        split at h
        · simp at h
        · rename_i dbm hins
          obtain ⟨htab, hrows⟩ := dbInsert_ok hins
          obtain ⟨pls, hls, ht, hr, hcnt⟩ := ih (c + 1) dbm n db1 h
          refine ⟨line :: pls, by simp [hls], by rw [ht, htab], ?_, ?_⟩
          · rw [hr, hrows]
            simp [List.filterMap_cons, hc]
          · rw [hcnt]
            simp [List.countP_cons, hc]
            omega

theorem process_file_ok {rx : Regexp} {cols : List String} {e : DirEntry}
    {db : DB} {n : Nat} {db1 : DB}
    (h : process_file rx cols e db = .ok (n, db1)) :
    ∃ pls : List String, e.content = some (pls.map Except.ok) ∧
      db1.tables = db.tables ∧
      db1.rows = db.rows ++ pls.filterMap
        (fun l => (rx.captures l).map (fun cp => buildRow cols cp e.name)) ∧
      n = pls.countP (fun l => (rx.captures l).isSome) := by
  unfold process_file at h
  cases hcont : e.content with
  | none =>
    rw [hcont] at h
    simp at h
  | some ls =>
    rw [hcont] at h
    obtain ⟨pls, hls, ht, hr, hcnt⟩ :=
      processLines_ok rx cols e.name ls 0 db n db1 h
    exact ⟨pls, by rw [hls], ht, hr, by simpa using hcnt⟩


/-- Claim C2: per-file processing is atomic.  When process_file succeeds,
the resulting store holds exactly the previous rows followed by one row per
matching line of the file, in order, and nothing else changed.  When any
step fails before commit (file open, a line read, or an insert), the call
returns the error, and the file loop leaves the store exactly as it was
before the file and propagates the error. -/
theorem claim_C2_atomic (rx : Regexp) (cols : List String) (e : DirEntry)
    (db : DB) (rest : List DirEntry) :
    (∀ n db1, process_file rx cols e db = .ok (n, db1) →
      ∃ ls : List String, e.content = some (ls.map Except.ok) ∧
        db1.tables = db.tables ∧
        db1.rows = db.rows ++ ls.filterMap
          (fun l => (rx.captures l).map (fun cp => buildRow cols cp e.name))) ∧
    (∀ er, process_file rx cols e db = .error er →
      runFiles rx cols (e :: rest) db = (.error er, db, [e.name])) := by
  constructor
  · intro n db1 h
    obtain ⟨ls, h1, h2, h3, _⟩ := process_file_ok h
    exact ⟨ls, h1, h2, h3⟩
  · intro er h
    simp only [runFiles]
    rw [h]

theorem claim_C2_witness :
    process_file rxEx (columnNames rxEx) entBad dbT = Except.error Err.ioErr ∧
    runFiles rxEx (columnNames rxEx) [entBad] dbT =
      (Except.error Err.ioErr, dbT, ["bad.log"]) ∧
    ∃ ls : List String, entEx.content = some (ls.map Except.ok) ∧
      dbT.tables = dbT.tables ∧
      ([["42", "sys.log"]] : List (List String)) = dbT.rows ++ ls.filterMap
        (fun l => (rxEx.captures l).map
          (fun cp => buildRow (columnNames rxEx) cp entEx.name)) :=
  ⟨rfl,
   (claim_C2_atomic rxEx (columnNames rxEx) entBad dbT []).2 Err.ioErr rfl,
   (claim_C2_atomic rxEx (columnNames rxEx) entEx dbT []).1 1
     ⟨dbT.tables, [["42", "sys.log"]]⟩ rfl⟩

theorem buildRow_columns {rx : Regexp} (hfn : "filename" ∉ namedGroups rx)
    (caps : String → Option String) (fname : String) :
    buildRow (columnNames rx) caps fname =
      (namedGroups rx).map (fun g => (caps g).getD "") ++ [fname] := by
  unfold buildRow columnNames
  have h1 : (namedGroups rx ++ ["filename"]).filter
      (fun n => n != "filename") = namedGroups rx := by
    rw [List.filter_append]
    have ha : (namedGroups rx).filter (fun n => n != "filename") =
        namedGroups rx := by
      rw [List.filter_eq_self]
      intro a ha
      simp only [bne_iff_ne, ne_eq]
      exact fun hEq => hfn (hEq ▸ ha)
    have hb : (["filename"] : List String).filter
        (fun n => n != "filename") = [] := by simp
    rw [ha, hb, List.append_nil]
  rw [h1]

/-- Claim C5: for a processed file read without error, a line that does not
match the pattern contributes no row, a matching line contributes exactly
one row whose value for each named group is the captured substring when the
group participated and the empty string otherwise, with the base name of
the source file as the filename value; the match count is the number of
matching lines. -/
theorem claim_C5_rows (rx : Regexp) (e : DirEntry) (db : DB)
    (ls : List String) (n : Nat) (db1 : DB)
    (hcont : e.content = some (ls.map Except.ok))
    (hfn : "filename" ∉ namedGroups rx)
    (h : process_file rx (columnNames rx) e db = .ok (n, db1)) :
    db1.rows = db.rows ++ ls.filterMap (specRow rx e.name) ∧
    n = ls.countP (fun l => (rx.captures l).isSome) := by
  obtain ⟨pls, hpls, ht, hr, hcnt⟩ := process_file_ok h
  rw [hcont] at hpls
  injection hpls with h2
  have hinj : Function.Injective (Except.ok : String → Except Err String) :=
    fun a b hab => Except.ok.inj hab
  have hlp : ls = pls := List.map_injective_iff.mpr hinj h2
  subst hlp
  have hfun : (fun l => (rx.captures l).map
      (fun cp => buildRow (columnNames rx) cp e.name)) = specRow rx e.name := by
    funext l
    unfold specRow
    cases hc2 : rx.captures l with
    | none => simp
    | some caps => simp [buildRow_columns hfn]
  constructor
  · rw [hr, hfun]
  · exact hcnt

theorem claim_C5_witness :
    entEx.content = some ((["E 42", "nope"] : List String).map Except.ok) ∧
    ("filename" ∉ namedGroups rxEx) ∧
    (⟨dbT.tables, [["42", "sys.log"]]⟩ : DB).rows =
      dbT.rows ++ (["E 42", "nope"] : List String).filterMap
        (specRow rxEx entEx.name) ∧
    1 = (["E 42", "nope"] : List String).countP
      (fun l => (rxEx.captures l).isSome) :=
  ⟨rfl, by decide,
   claim_C5_rows rxEx entEx dbT ["E 42", "nope"] 1
     ⟨dbT.tables, [["42", "sys.log"]]⟩ rfl (by decide) rfl⟩

theorem length_filterMap_rows (rx : Regexp) (cols : List String)
    (fname : String) :
    ∀ ls : List String,
      (ls.filterMap (fun l => (rx.captures l).map
          (fun cp => buildRow cols cp fname))).length =
        ls.countP (fun l => (rx.captures l).isSome) := by
  intro ls
  induction ls with
  | nil => rfl
  | cons l rest ih =>
    cases hc : rx.captures l <;>
      simp [List.filterMap_cons, List.countP_cons, hc, ih]

theorem process_file_len {rx : Regexp} {cols : List String} {e : DirEntry}
    {db : DB} {n : Nat} {db1 : DB}
    (h : process_file rx cols e db = .ok (n, db1)) :
    db1.rows.length = db.rows.length + n ∧ db1.tables = db.tables := by
  obtain ⟨pls, _, ht, hr, hcnt⟩ := process_file_ok h
  refine ⟨?_, ht⟩
  rw [hr, List.length_append, length_filterMap_rows, ← hcnt]

/-- Claim C7: for every run of the file loop that completes without error,
the reported total equals the sum of the per-file match counts, and the
number of rows added to the store across all files equals that total. -/
theorem claim_C7_totals (rx : Regexp) (cols : List String) :
    ∀ (files : List DirEntry) (db : DB) (n : Nat) (db1 : DB)
      (opened : List String),
      runFiles rx cols files db = (.ok n, db1, opened) →
      n = (runCounts rx cols files db).sum ∧
      db1.rows.length = db.rows.length + n ∧
      db1.tables = db.tables := by
  intro files
  induction files with
  | nil =>
    intro db n db1 opened h
    simp only [runFiles, Prod.mk.injEq, Except.ok.injEq] at h
    obtain ⟨rfl, rfl, rfl⟩ := h
    simp [runCounts]
  | cons f rest ih =>
    intro db n db1 opened h
    simp only [runFiles] at h
    split at h
    · rename_i e hpf
      simp at h
    · rename_i k dbk hpf
      split at h
      · rename_i m db2 opened2 hrun
        simp only [Prod.mk.injEq, Except.ok.injEq] at h
        obtain ⟨rfl, rfl, rfl⟩ := h
        obtain ⟨hm, hlen2, htab2⟩ := ih dbk m db2 opened2 hrun
        obtain ⟨hlen1, htab1⟩ := process_file_len hpf
        refine ⟨?_, ?_, by rw [htab2, htab1]⟩
        · simp only [runCounts, hpf]
          rw [List.sum_cons, hm]
        · rw [hlen2, hlen1]
          omega
      · rename_i e db2 opened2 hrun
        simp at h

theorem claim_C7_witness :
    runFiles rxEx (columnNames rxEx) [entEx] dbT =
      (Except.ok 1, ⟨dbT.tables, [["42", "sys.log"]]⟩, ["sys.log"]) ∧
    1 = (runCounts rxEx (columnNames rxEx) [entEx] dbT).sum ∧
    (⟨dbT.tables, [["42", "sys.log"]]⟩ : DB).rows.length =
      dbT.rows.length + 1 :=
  ⟨rfl,
   (claim_C7_totals rxEx (columnNames rxEx) [entEx] dbT 1
     ⟨dbT.tables, [["42", "sys.log"]]⟩ ["sys.log"] rfl).1,
   (claim_C7_totals rxEx (columnNames rxEx) [entEx] dbT 1
     ⟨dbT.tables, [["42", "sys.log"]]⟩ ["sys.log"] rfl).2.1⟩

/-- Claim C6: the run is fail-fast.  If the file loop ends in an error, then
there is an index i such that the files before i were processed and
committed (the final store is exactly the success state of that prefix),
file i is the one whose read or insert failed, the open attempts stop at
file i, and no later file is ever opened or processed. -/
theorem claim_C6_fail_fast (rx : Regexp) (cols : List String) :
    ∀ (files : List DirEntry) (db db1 : DB) (er : Err)
      (opened : List String),
      runFiles rx cols files db = (.error er, db1, opened) →
      ∃ i, i < files.length ∧
        opened = (files.take (i + 1)).map DirEntry.name ∧
        (∃ k, runFiles rx cols (files.take i) db =
          (.ok k, db1, (files.take i).map DirEntry.name)) ∧
        ∃ f, files[i]? = some f ∧ process_file rx cols f db1 = .error er := by
  intro files
  induction files with
  | nil =>
    intro db db1 er opened h
    simp [runFiles] at h
  | cons f rest ih =>
    intro db db1 er opened h
    simp only [runFiles] at h
    split at h
    · rename_i e hpf
      simp only [Prod.mk.injEq, Except.error.injEq] at h
      obtain ⟨rfl, rfl, rfl⟩ := h
      exact ⟨0, by simp, by simp, ⟨0, by simp [runFiles]⟩, f, by simp, hpf⟩
    · rename_i k dbk hpf
      split at h
      · rename_i m db2 opened2 hrun
        simp at h
      · rename_i e db2 opened2 hrun
        simp only [Prod.mk.injEq, Except.error.injEq] at h
        obtain ⟨rfl, rfl, rfl⟩ := h
        obtain ⟨i, hlen, hop, ⟨kk, hpre⟩, ff, hidx, herr⟩ :=
          ih dbk _ _ opened2 hrun
        refine ⟨i + 1, by simpa using hlen, ?_, ?_, ?_⟩
        · rw [List.take_succ_cons, List.map_cons, hop]
        · refine ⟨k + kk, ?_⟩
          rw [List.take_succ_cons, List.map_cons]
          simp only [runFiles, hpf, hpre]
        · exact ⟨ff, by simpa using hidx, herr⟩

theorem claim_C6_witness :
    runFiles rxEx (columnNames rxEx) [entEx, entBad] dbT =
      (Except.error Err.ioErr, ⟨dbT.tables, [["42", "sys.log"]]⟩,
        ["sys.log", "bad.log"]) ∧
    ∃ i, i < ([entEx, entBad] : List DirEntry).length ∧
      (["sys.log", "bad.log"] : List String) =
        (([entEx, entBad] : List DirEntry).take (i + 1)).map DirEntry.name ∧
      (∃ k, runFiles rxEx (columnNames rxEx)
          (([entEx, entBad] : List DirEntry).take i) dbT =
        (.ok k, ⟨dbT.tables, [["42", "sys.log"]]⟩,
          (([entEx, entBad] : List DirEntry).take i).map DirEntry.name)) ∧
      ∃ f, ([entEx, entBad] : List DirEntry)[i]? = some f ∧
        process_file rxEx (columnNames rxEx) f
          ⟨dbT.tables, [["42", "sys.log"]]⟩ = .error Err.ioErr :=
  ⟨rfl,
   claim_C6_fail_fast rxEx (columnNames rxEx) [entEx, entBad] dbT
     ⟨dbT.tables, [["42", "sys.log"]]⟩ Err.ioErr ["sys.log", "bad.log"] rfl⟩

end Log2SQLite
